import Mathlib

/- Verification of the expense-manager reclassification engine against its
   specification.

   Embedding conventions, fixed once for the whole file:
   - Calendar dates in zero-padded ISO form (YYYY-MM-DD) are embedded as day
     numbers (Nat): lexicographic order on such strings agrees with numeric
     order on day numbers, and the JavaScript expression
     new Date(a) - new Date(b) over two such strings is exactly the day
     difference times 86400000 ms.
   - JavaScript numbers are embedded as Rat.
   - A field that is absent or null is embedded as Option.none; the code
     reads optional fields only through the ?? operator, for which absent
     and null behave identically.
   - Stateful storage functions (load / persist) are embedded by explicit
     list passing: a function that persists a new expense list returns it. -/

namespace ExpenseManager

/-- The fixed top-level category taxonomy (constants module). -/
def CATEGORIES : List String :=
  ["Food", "Transport", "Utilities", "Entertainment", "Shopping", "Health", "Other"]

/-- The confidence threshold of the final filter, 0.75 (written as a
    normalized rational so that kernel evaluation reduces). -/
def CONFIDENCE_THRESHOLD : ℚ := mkRat 75 100

/-- The batch window in days (reclassify module). -/
def BATCH_DAYS : Nat := 10

/-- A persisted expense record. The date is a day number (see the header
    comment); subcategory, original_prompt and normalized_merchant are
    nullable. -/
structure Expense where
  id : String
  date : Nat
  amount : ℚ
  category : String
  subcategory : Option String
  details : String
  paidBy : String
  createdAt : String
  original_prompt : Option String
  normalized_merchant : Option String
deriving DecidableEq, Repr

/-- A change proposal, as consumed by applyReclassification: the merge step
    reads transaction_id, new_category, new_subcategory, new_description and
    normalized_merchant through the ?? operator, and the final filter reads
    confidence and new_category, so each of those fields is kept. Proposals
    that passed validateResponse always carry a string new_category and a
    numeric confidence. -/
structure Change where
  transaction_id : String
  new_category : Option String
  new_subcategory : Option String
  new_description : Option String
  confidence : ℚ
  normalized_merchant : Option String
deriving DecidableEq, Repr

/-- Lookup in the JavaScript Map built from a list of (transaction_id, change)
    entries: a later entry with the same key overwrites an earlier one, so the
    lookup returns the last matching change. -/
def mapGet (approvedChanges : List Change) (id : String) : Option Change :=
  approvedChanges.reverse.find? (fun c => c.transaction_id == id)

/-- Lookup in the Map built from the snapshot, keyed by expense id (last
    entry wins, as for mapGet). -/
def snapGet (snapshot : List Expense) (id : String) : Option Expense :=
  snapshot.reverse.find? (fun e => e.id == id)

/-- The per-record merge of applyReclassification: a record with no matching
    change is returned as is; otherwise category, subcategory, details and
    normalized_merchant are merged through the ?? chains of the source. -/
def applyStep (approvedChanges : List Change) (e : Expense) : Expense :=
  match mapGet approvedChanges e.id with
  | none => e
  | some change =>
      { e with
        category := change.new_category.getD e.category
        subcategory := change.new_subcategory.or e.subcategory
        details := change.new_description.getD e.details
        normalized_merchant := change.normalized_merchant.or e.normalized_merchant }

/-- What applyReclassification returns together with the store it persists. -/
structure ApplyResult where
  updated : List Expense
  snapshot : List Expense
  updatedCount : Nat
deriving DecidableEq, Repr

/-- applyReclassification: snapshot every stored record whose id is referenced
    by an approved change, merge each change into its target record, persist
    the full updated list, and report updatedCount = approvedChanges.length. -/
def applyReclassification (expenses : List Expense) (approvedChanges : List Change) :
    ApplyResult :=
  let affectedIds := approvedChanges.map (·.transaction_id)
  { updated := expenses.map (applyStep approvedChanges)
    snapshot := expenses.filter (fun e => List.elem e.id affectedIds)
    updatedCount := approvedChanges.length }

/-- undoReclassification: replace every stored record whose id appears in the
    snapshot by its snapshot pre-image, leaving the others untouched. -/
def undoReclassification (expenses : List Expense) (snapshot : List Expense) :
    List Expense :=
  expenses.map (fun e => (snapGet snapshot e.id).getD e)

/-- The merge step never changes the id of a record. -/
theorem applyStep_id (approvedChanges : List Change) (e : Expense) :
    (applyStep approvedChanges e).id = e.id := by
  unfold applyStep
  cases mapGet approvedChanges e.id <;> rfl

/-- A record whose id is referenced by no approved change is left exactly as
    it was by the merge step. -/
theorem applyStep_of_not_mem (approvedChanges : List Change) (e : Expense)
    (h : e.id ∉ approvedChanges.map (·.transaction_id)) :
    applyStep approvedChanges e = e := by
  have hnone : mapGet approvedChanges e.id = none := by
    rw [mapGet, List.find?_eq_none]
    intro c hc hbeq
    exact h (List.mem_map.mpr ⟨c, List.mem_reverse.mp hc, beq_iff_eq.mp hbeq⟩)
  unfold applyStep
  rw [hnone]

/-- If the id of e is referenced by no approved change, the snapshot lookup
    for that id finds nothing. -/
theorem snapGet_not_mem (expenses : List Expense) (approvedChanges : List Change)
    (e : Expense) (h : e.id ∉ approvedChanges.map (·.transaction_id)) :
    snapGet (applyReclassification expenses approvedChanges).snapshot e.id = none := by
  rw [snapGet, List.find?_eq_none]
  intro x hx hbeq
  have hx' := List.mem_reverse.mp hx
  have hmem := (List.mem_filter.mp hx').2
  have hid : x.id ∈ approvedChanges.map (·.transaction_id) := List.elem_iff.mp hmem
  rw [beq_iff_eq.mp hbeq] at hid
  exact h hid

/-- Two members of a list with no duplicate ids and equal ids are equal. -/
theorem eq_of_id_eq {l : List Expense} (h : (l.map Expense.id).Nodup)
    {a b : Expense} (ha : a ∈ l) (hb : b ∈ l) (hid : a.id = b.id) : a = b :=
  List.inj_on_of_nodup_map h ha hb hid

/-- If e is stored and its id is referenced by some approved change, the
    snapshot lookup returns e itself (given no duplicate stored ids). -/
theorem snapGet_mem (expenses : List Expense) (approvedChanges : List Change)
    (hnd : (expenses.map Expense.id).Nodup) (e : Expense) (he : e ∈ expenses)
    (h : e.id ∈ approvedChanges.map (·.transaction_id)) :
    snapGet (applyReclassification expenses approvedChanges).snapshot e.id = some e := by
  have hsnap : e ∈ (applyReclassification expenses approvedChanges).snapshot := by
    refine List.mem_filter.mpr ⟨he, ?_⟩
    exact List.elem_iff.mpr h
  have hsome : (snapGet (applyReclassification expenses approvedChanges).snapshot e.id).isSome := by
    rw [snapGet, List.find?_isSome]
    exact ⟨e, List.mem_reverse.mpr hsnap, beq_iff_eq.mpr rfl⟩
  obtain ⟨x, hx⟩ := Option.isSome_iff_exists.mp hsome
  rw [snapGet] at hx
  have hxbeq := List.find?_some hx
  have hxid : x.id = e.id := beq_iff_eq.mp hxbeq
  have hxmem : x ∈ expenses := by
    have := List.mem_reverse.mp (List.mem_of_find?_eq_some hx)
    exact (List.mem_filter.mp this).1
  rw [snapGet, hx, eq_of_id_eq hnd hxmem he hxid]

/-- A concrete stored record used by witnesses and counterexamples. -/
def sampleExpense1 : Expense :=
  { id := "e1", date := 20000, amount := 450, category := "Food",
    subcategory := none, details := "coffee", paidBy := "Me",
    createdAt := "2025-01-01T00:00:00Z", original_prompt := some "spent 450 on coffee",
    normalized_merchant := some "cafe" }

/-- A concrete approved change targeting sampleExpense1. -/
def sampleChange1 : Change :=
  { transaction_id := "e1", new_category := some "Transport",
    new_subcategory := some "Taxi", new_description := none,
    confidence := mkRat 9 10, normalized_merchant := none }

/-- A concrete approved change whose transaction_id matches no stored record. -/
def ghostChange : Change :=
  { transaction_id := "zzz", new_category := some "Food",
    new_subcategory := none, new_description := none,
    confidence := mkRat 4 5, normalized_merchant := none }

/-- A concrete approved change that supplies a normalized_merchant value. -/
def merchantChange : Change :=
  { transaction_id := "e1", new_category := none, new_subcategory := none,
    new_description := none, confidence := 1, normalized_merchant := some "uber" }

/-- C1: for every expense store with distinct record ids and every list of
    approved changes, applying the changes and then undoing with the returned
    snapshot restores the store exactly; a record whose id is referenced by no
    approved change never appears in the snapshot and is left unchanged by
    both the apply merge and the undo lookup. -/
theorem C1_apply_undo_roundtrip (expenses : List Expense) (approvedChanges : List Change)
    (hnd : (expenses.map Expense.id).Nodup) :
    undoReclassification
        (applyReclassification expenses approvedChanges).updated
        (applyReclassification expenses approvedChanges).snapshot = expenses
  ∧ (∀ r ∈ (applyReclassification expenses approvedChanges).snapshot,
        r.id ∈ approvedChanges.map (·.transaction_id))
  ∧ (∀ e ∈ expenses, e.id ∉ approvedChanges.map (·.transaction_id) →
        applyStep approvedChanges e = e ∧
        snapGet (applyReclassification expenses approvedChanges).snapshot e.id = none) := by
  refine ⟨?_, ?_, ?_⟩
  · rw [undoReclassification]
    have hupd : (applyReclassification expenses approvedChanges).updated
        = expenses.map (applyStep approvedChanges) := rfl
    rw [hupd, List.map_map]
    have hcongr : ∀ e ∈ expenses,
        ((fun x => (snapGet (applyReclassification expenses approvedChanges).snapshot x.id).getD x)
          ∘ applyStep approvedChanges) e = id e := by
      intro e he
      show (snapGet (applyReclassification expenses approvedChanges).snapshot
          (applyStep approvedChanges e).id).getD (applyStep approvedChanges e) = e
      rw [applyStep_id]
      by_cases h : e.id ∈ approvedChanges.map (·.transaction_id)
      · rw [snapGet_mem expenses approvedChanges hnd e he h]
        rfl
      · rw [snapGet_not_mem expenses approvedChanges e h,
          applyStep_of_not_mem approvedChanges e h]
        rfl
    rw [List.map_congr_left hcongr, List.map_id]
  · intro r hr
    have hmem := (List.mem_filter.mp hr).2
    exact List.elem_iff.mp hmem
  · intro e _ h
    exact ⟨applyStep_of_not_mem approvedChanges e h,
      snapGet_not_mem expenses approvedChanges e h⟩

/-- Witness for C1 at a concrete store and change list. -/
theorem C1_apply_undo_roundtrip_witness :
    undoReclassification
        (applyReclassification [sampleExpense1] [sampleChange1]).updated
        (applyReclassification [sampleExpense1] [sampleChange1]).snapshot
      = [sampleExpense1] :=
  (C1_apply_undo_roundtrip [sampleExpense1] [sampleChange1] (by decide)).1

/-- C2 fails as stated: applyReclassification also overwrites the
    normalized_merchant field when the approved change supplies one, so a
    field other than category, subcategory and description is modified. -/
theorem C2_counterexample :
    (applyReclassification [sampleExpense1] [merchantChange]).updated.map
        (·.normalized_merchant) ≠ [sampleExpense1.normalized_merchant] := by
  decide

/-- C2 amended: the merge step modifies only category, subcategory, details
    and normalized_merchant (details only when the change supplies a
    new_description, normalized_merchant only when the change supplies one);
    id, date, amount, paidBy, createdAt and original_prompt are always left
    exactly as they were, and an untargeted record is returned unchanged. -/
theorem C2_frame (expenses : List Expense) (approvedChanges : List Change) :
    ((applyReclassification expenses approvedChanges).updated
        = expenses.map (applyStep approvedChanges))
  ∧ (∀ e : Expense,
      ((applyStep approvedChanges e).id = e.id
        ∧ (applyStep approvedChanges e).date = e.date
        ∧ (applyStep approvedChanges e).amount = e.amount
        ∧ (applyStep approvedChanges e).paidBy = e.paidBy
        ∧ (applyStep approvedChanges e).createdAt = e.createdAt
        ∧ (applyStep approvedChanges e).original_prompt = e.original_prompt)
      ∧ (∀ c, mapGet approvedChanges e.id = some c → c.new_description = none →
            (applyStep approvedChanges e).details = e.details)
      ∧ (∀ c, mapGet approvedChanges e.id = some c → c.normalized_merchant = none →
            (applyStep approvedChanges e).normalized_merchant = e.normalized_merchant)
      ∧ (mapGet approvedChanges e.id = none → applyStep approvedChanges e = e)) := by
  refine ⟨rfl, fun e => ?_⟩
  refine ⟨?_, ?_, ?_, ?_⟩
  · unfold applyStep
    cases mapGet approvedChanges e.id <;> exact ⟨rfl, rfl, rfl, rfl, rfl, rfl⟩
  · intro c hc hdesc
    unfold applyStep
    rw [hc]
    show c.new_description.getD e.details = e.details
    rw [hdesc]
    rfl
  · intro c hc hmerch
    unfold applyStep
    rw [hc]
    show c.normalized_merchant.or e.normalized_merchant = e.normalized_merchant
    rw [hmerch]
    rfl
  · intro hc
    unfold applyStep
    rw [hc]

/-- Witness for C2 amended at a concrete record and change list. -/
theorem C2_frame_witness :
    (applyStep [merchantChange] sampleExpense1).id = sampleExpense1.id
      ∧ (applyStep [merchantChange] sampleExpense1).createdAt = sampleExpense1.createdAt
      ∧ (applyStep [merchantChange] sampleExpense1).original_prompt
          = sampleExpense1.original_prompt := by
  have h := (C2_frame [sampleExpense1] [merchantChange]).2 sampleExpense1
  exact ⟨h.1.1, h.1.2.2.2.2.1, h.1.2.2.2.2.2⟩

/-- C10: applyReclassification always reports updatedCount equal to the
    length of the approved change list; a change list that matches no stored
    record leaves the store unchanged and produces an empty snapshot, so on a
    concrete input the reported count strictly exceeds the snapshot size. -/
theorem C10_updatedCount (expenses : List Expense) (approvedChanges : List Change) :
    ((applyReclassification expenses approvedChanges).updatedCount
        = approvedChanges.length)
  ∧ ((∀ c ∈ approvedChanges, c.transaction_id ∉ expenses.map Expense.id) →
        (applyReclassification expenses approvedChanges).updated = expenses
          ∧ (applyReclassification expenses approvedChanges).snapshot = [])
  ∧ ((applyReclassification [sampleExpense1] [sampleChange1, ghostChange]).snapshot.length
      < (applyReclassification [sampleExpense1] [sampleChange1, ghostChange]).updatedCount) := by
  refine ⟨rfl, ?_, by decide⟩
  intro h
  constructor
  · have hupd : (applyReclassification expenses approvedChanges).updated
        = expenses.map (applyStep approvedChanges) := rfl
    rw [hupd]
    have hcongr : ∀ e ∈ expenses, applyStep approvedChanges e = id e := by
      intro e he
      refine applyStep_of_not_mem approvedChanges e ?_
      intro hmem
      obtain ⟨c, hc, hcid⟩ := List.mem_map.mp hmem
      exact h c hc (hcid ▸ List.mem_map.mpr ⟨e, he, rfl⟩)
    rw [List.map_congr_left hcongr, List.map_id]
  · have hsnap : (applyReclassification expenses approvedChanges).snapshot
        = expenses.filter
            (fun e => List.elem e.id (approvedChanges.map (·.transaction_id))) := rfl
    rw [hsnap, List.filter_eq_nil_iff]
    intro e he hmem
    obtain ⟨c, hc, hcid⟩ := List.mem_map.mp (List.elem_iff.mp hmem)
    exact h c hc (hcid ▸ List.mem_map.mpr ⟨e, he, rfl⟩)

/-- Witness for C10 at a concrete store and an unmatched change. -/
theorem C10_updatedCount_witness :
    (applyReclassification [sampleExpense1] [ghostChange]).updated = [sampleExpense1]
      ∧ (applyReclassification [sampleExpense1] [ghostChange]).updatedCount = 1 := by
  have h := C10_updatedCount [sampleExpense1] [ghostChange]
  exact ⟨(h.2.1 (by decide)).1, h.1⟩

/-- The order of the batcher sort: ascending lexicographic order on the ISO
    date strings, which is numeric order on day numbers. -/
def dateLe (a b : Expense) : Prop := a.date ≤ b.date

instance : DecidableRel dateLe := fun a b => Nat.decLe a.date b.date

instance : IsTotal Expense dateLe := ⟨fun a b => Nat.le_total a.date b.date⟩

instance : IsTrans Expense dateLe := ⟨fun _ _ _ => Nat.le_trans⟩

/-- The stable ascending date sort of the batcher. The JavaScript sort is
    required to be stable, and a stable sort under a fixed total preorder has
    a unique output, so it is embedded as a stable structurally recursive
    sort. -/
def sortByDate (expenses : List Expense) : List Expense :=
  List.insertionSort dateLe expenses

/-- The batch-building walk of chunkByDays over the date-sorted tail: append
    the expense to the current batch while its date is at most daySize days
    after the batch anchor date, otherwise close the batch and open a new one
    anchored at that expense. The closing push of the source is guarded by
    currentBatch being non-empty; every call here passes a non-empty batch. -/
def chunkGo (daySize : Nat) : List Expense → Nat → List Expense → List (List Expense)
  | [], _, currentBatch => [currentBatch]
  | e :: rest, batchStartDate, currentBatch =>
      if e.date ≤ batchStartDate + daySize then
        chunkGo daySize rest batchStartDate (currentBatch ++ [e])
      else
        currentBatch :: chunkGo daySize rest e.date [e]

/-- chunkByDays: stable-sort by date, then walk the sorted sequence starting
    a batch at the first expense. Empty input gives zero batches. -/
def chunkByDays (expenses : List Expense) (daySize : Nat) : List (List Expense) :=
  match sortByDate expenses with
  | [] => []
  | e :: rest => chunkGo daySize rest e.date [e]
/-- The concatenation of the batches built by the walk is the current batch
    followed by the remaining input. -/
theorem chunkGo_flatten (daySize : Nat) :
    ∀ (rest : List Expense) (anchor : Nat) (cur : List Expense),
      (chunkGo daySize rest anchor cur).flatten = cur ++ rest
  | [], _, cur => by simp [chunkGo]
  | e :: rest, anchor, cur => by
      rw [chunkGo]
      by_cases h : e.date ≤ anchor + daySize
      · rw [if_pos h, chunkGo_flatten daySize rest anchor (cur ++ [e])]
        simp
      · rw [if_neg h]
        simp [chunkGo_flatten daySize rest e.date [e]]

/-- Every batch built by the walk from a non-empty current batch is itself
    non-empty, a batch head is its anchor, and every member of a batch dates
    at most daySize days after that head. -/
theorem chunkGo_window (daySize : Nat) :
    ∀ (rest : List Expense) (f : Expense) (tail : List Expense),
      (∀ x ∈ f :: tail, x.date ≤ f.date + daySize) →
      ∀ b ∈ chunkGo daySize rest f.date (f :: tail),
        ∃ hd t, b = hd :: t ∧ ∀ x ∈ b, x.date ≤ hd.date + daySize
  | [], f, tail => by
      intro hcur b hb
      simp only [chunkGo, List.mem_singleton] at hb
      exact ⟨f, tail, hb, hb ▸ hcur⟩
  | e :: rest, f, tail => by
      intro hcur b hb
      rw [chunkGo] at hb
      by_cases h : e.date ≤ f.date + daySize
      · rw [if_pos h] at hb
        have hcur2 : ∀ x ∈ f :: (tail ++ [e]), x.date ≤ f.date + daySize := by
          intro x hx
          rcases List.mem_cons.mp hx with hx | hx
          · exact hx ▸ hcur f (List.mem_cons_self f tail)
          · rcases List.mem_append.mp hx with hx | hx
            · exact hcur x (List.mem_cons_of_mem f hx)
            · rw [List.mem_singleton.mp hx]
              exact h
        exact chunkGo_window daySize rest f (tail ++ [e]) hcur2 b hb
      · rw [if_neg h] at hb
        rcases List.mem_cons.mp hb with hb | hb
        · exact ⟨f, tail, hb, hb ▸ hcur⟩
        · have hcur2 : ∀ x ∈ e :: ([] : List Expense), x.date ≤ e.date + daySize := by
            intro x hx
            rw [List.mem_singleton.mp hx]
            exact Nat.le_add_right e.date daySize
          exact chunkGo_window daySize rest e [] hcur2 b hb

/-- If the current batch followed by the remaining input is sorted by date,
    every batch built by the walk is sorted by date. -/
theorem chunkGo_sorted (daySize : Nat) :
    ∀ (rest : List Expense) (anchor : Nat) (cur : List Expense),
      (cur ++ rest).Pairwise (fun a b => a.date ≤ b.date) →
      ∀ b ∈ chunkGo daySize rest anchor cur,
        b.Pairwise (fun a b => a.date ≤ b.date)
  | [], _, cur => by
      intro hsort b hb
      simp only [chunkGo, List.mem_singleton] at hb
      rw [hb]
      simpa using hsort
  | e :: rest, anchor, cur => by
      intro hsort b hb
      rw [chunkGo] at hb
      by_cases h : e.date ≤ anchor + daySize
      · rw [if_pos h] at hb
        have hsort2 : ((cur ++ [e]) ++ rest).Pairwise (fun a b => a.date ≤ b.date) := by
          rw [List.append_assoc]
          exact hsort
        exact chunkGo_sorted daySize rest anchor (cur ++ [e]) hsort2 b hb
      · rw [if_neg h] at hb
        rcases List.mem_cons.mp hb with hb | hb
        · exact hb ▸ (List.pairwise_append.mp hsort).1
        · have hsort2 : ([e] ++ rest).Pairwise (fun a b => a.date ≤ b.date) :=
            (List.pairwise_append.mp hsort).2.1
          exact chunkGo_sorted daySize rest e.date [e] hsort2 b hb

/-- The date-sorted input is sorted. -/
theorem sortByDate_sorted (expenses : List Expense) :
    (sortByDate expenses).Pairwise (fun a b => a.date ≤ b.date) :=
  List.sorted_insertionSort dateLe expenses

/-- The date-sorted input is a permutation of the input. -/
theorem sortByDate_perm (expenses : List Expense) :
    (sortByDate expenses).Perm expenses :=
  List.perm_insertionSort dateLe expenses

/-- C5: for every expense list and window size, the concatenation of the
    batches is exactly the date-sorted input (hence a permutation of the
    input, so every expense lands in exactly one batch, counted with
    multiplicity); every batch is non-empty and internally sorted ascending
    by date; and every member of a batch dates at most daySize days after
    the head (anchor) of its batch. -/
theorem C5_batching (expenses : List Expense) (daySize : Nat) :
    ((chunkByDays expenses daySize).flatten = sortByDate expenses)
  ∧ ((chunkByDays expenses daySize).flatten.Perm expenses)
  ∧ (∀ e : Expense,
        ((chunkByDays expenses daySize).map (fun b => b.count e)).sum
          = expenses.count e)
  ∧ (∀ b ∈ chunkByDays expenses daySize, b ≠ [])
  ∧ (∀ b ∈ chunkByDays expenses daySize, b.Pairwise (fun a b => a.date ≤ b.date))
  ∧ (∀ b ∈ chunkByDays expenses daySize,
        ∃ hd t, b = hd :: t ∧ ∀ x ∈ b, x.date ≤ hd.date + daySize) := by
  have hflat : (chunkByDays expenses daySize).flatten = sortByDate expenses := by
    rw [chunkByDays]
    cases h : sortByDate expenses with
    | nil => rfl
    | cons e rest =>
        rw [chunkGo_flatten]
        rfl
  have hperm : (chunkByDays expenses daySize).flatten.Perm expenses := by
    rw [hflat]
    exact sortByDate_perm expenses
  have hwin : ∀ b ∈ chunkByDays expenses daySize,
      ∃ hd t, b = hd :: t ∧ ∀ x ∈ b, x.date ≤ hd.date + daySize := by
    rw [chunkByDays]
    cases h : sortByDate expenses with
    | nil => intro b hb; exact absurd hb (List.not_mem_nil b)
    | cons e rest =>
        intro b hb
        refine chunkGo_window daySize rest e [] ?_ b hb
        intro x hx
        rw [List.mem_singleton.mp hx]
        exact Nat.le_add_right e.date daySize
  refine ⟨hflat, hperm, ?_, ?_, ?_, hwin⟩
  · intro e
    rw [← List.count_flatten]
    exact hperm.count_eq e
  · intro b hb
    obtain ⟨hd, t, hbt, -⟩ := hwin b hb
    rw [hbt]
    exact List.cons_ne_nil hd t
  · have hsorted := sortByDate_sorted expenses
    revert hsorted
    rw [chunkByDays]
    cases h : sortByDate expenses with
    | nil => intro _ b hb; exact absurd hb (List.not_mem_nil b)
    | cons e rest =>
        intro hsorted b hb
        exact chunkGo_sorted daySize rest e.date [e] (by simpa using hsorted) b hb

/-- A second concrete record, dated far enough after sampleExpense1 that the
    two fall into different 10-day batches. -/
def sampleExpense2 : Expense :=
  { id := "e2", date := 20050, amount := 1200, category := "Shopping",
    subcategory := none, details := "new shoes", paidBy := "Me",
    createdAt := "2025-02-01T00:00:00Z", original_prompt := none,
    normalized_merchant := none }

/-- Witness for C5 at a concrete expense list whose two records fall into
    two different batches. -/
theorem C5_batching_witness :
    (chunkByDays [sampleExpense1, sampleExpense2] 10).flatten.Perm
      [sampleExpense1, sampleExpense2] :=
  (C5_batching [sampleExpense1, sampleExpense2] 10).2.1

/-- The scope descriptor of getScopedExpenses: the all marker, a number of
    days, or any other string (the source maps the string 90d to 90 days and
    every other non-number to 30 days). -/
inductive Scope where
  | all : Scope
  | days (n : Nat) : Scope
  | named (s : String) : Scope
deriving DecidableEq, Repr

/-- The day count a non-all scope stands for. -/
def scopeDays : Scope → Nat
  | .all => 0
  | .days n => n
  | .named s => if s = "90d" then 90 else 30

/-- getScopedExpenses: the all scope returns the collection unfiltered;
    otherwise keep exactly the records dated on or after the cutoff, the
    date scopeDays days before today. -/
def getScopedExpenses (expenses : List Expense) (scope : Scope) (today : Nat) :
    List Expense :=
  match scope with
  | .all => expenses
  | s =>
      let cutoff := today - scopeDays s
      expenses.filter (fun e => cutoff ≤ e.date)

/-- C6: with an integer day count the scope selector returns exactly the
    subsequence of records dated on or after today minus that count, in the
    original order; with the all scope it returns the input list itself. -/
theorem C6_scope (expenses : List Expense) (n today : Nat) :
    ((getScopedExpenses expenses (Scope.days n) today).Sublist expenses)
  ∧ (∀ e ∈ getScopedExpenses expenses (Scope.days n) today, today - n ≤ e.date)
  ∧ (∀ e ∈ expenses, today - n ≤ e.date →
        e ∈ getScopedExpenses expenses (Scope.days n) today)
  ∧ (getScopedExpenses expenses (Scope.days n) today
      = expenses.filter (fun e => today - n ≤ e.date))
  ∧ (getScopedExpenses expenses Scope.all today = expenses) := by
  refine ⟨List.filter_sublist expenses, ?_, ?_, rfl, rfl⟩
  · intro e he
    have := (List.mem_filter.mp he).2
    simpa using this
  · intro e he hdate
    exact List.mem_filter.mpr ⟨he, by simpa using hdate⟩

/-- Witness for C6 at a concrete collection and cutoff. -/
theorem C6_scope_witness :
    sampleExpense2 ∈ getScopedExpenses [sampleExpense1, sampleExpense2]
      (Scope.days 30) 20060 :=
  (C6_scope [sampleExpense1, sampleExpense2] 30 20060).2.2.1 sampleExpense2
    (by decide) (by decide)

/-- A parsed JSON value, as JSON.parse produces it: null, boolean, number,
    string, array or object. JSON.parse keeps one value per key, so an
    object is a list of key-value pairs with distinct keys; the field lookup
    below takes the first match. -/
inductive Json where
  | null : Json
  | bool : Bool → Json
  | num : ℚ → Json
  | str : String → Json
  | arr : List Json → Json
  | obj : List (String × Json) → Json

/-- Property read on a parsed JSON value: an object yields the value stored
    under the key; on an array, a primitive or null the named properties read
    by this code base do not exist. A read on null itself throws in
    JavaScript, which in every caller modelled here also ends in rejection. -/
def getField (j : Json) (key : String) : Option Json :=
  match j with
  | Json.obj fields => (fields.find? (fun kv => kv.1 == key)).map (fun kv => kv.2)
  | _ => none

/-- The typeof check for a string-valued property: reads the property and
    tests that it holds a string. -/
def fieldIsString (c : Json) (k : String) : Bool :=
  match getField c k with
  | some (Json.str _) => true
  | _ => false

/-- The typeof check for a number-valued property: reads the property and
    tests that it holds a number. -/
def fieldIsNumber (c : Json) (k : String) : Bool :=
  match getField c k with
  | some (Json.num _) => true
  | _ => false

/-- validateResponse: the parsed value must be an object (null and other
    non-objects are rejected up front; an array never carries the named
    fields) with a changes array and a new_subcategories array, and every
    entry of changes must carry a string transaction_id, a string
    new_category and a numeric confidence. Any violation throws, rejecting
    the whole batch response. -/
def validateResponse (parsed : Json) : Bool :=
  match parsed with
  | Json.obj _ =>
      match getField parsed "changes", getField parsed "new_subcategories" with
      | some (Json.arr cs), some (Json.arr _) =>
          cs.all (fun c =>
            fieldIsString c "transaction_id"
            && fieldIsString c "new_category"
            && fieldIsNumber c "confidence")
      | _, _ => false
  | _ => false

/-- A string-typed property test succeeds exactly when the property holds
    some string. -/
theorem fieldIsString_iff (c : Json) (k : String) :
    fieldIsString c k = true ↔ ∃ s, getField c k = some (Json.str s) := by
  unfold fieldIsString
  cases h : getField c k with
  | none => simp
  | some j => cases j <;> simp

/-- A number-typed property test succeeds exactly when the property holds
    some number. -/
theorem fieldIsNumber_iff (c : Json) (k : String) :
    fieldIsNumber c k = true ↔ ∃ q, getField c k = some (Json.num q) := by
  unfold fieldIsNumber
  cases h : getField c k with
  | none => simp
  | some j => cases j <;> simp

/-- C8: the response validator accepts a parsed value exactly when it is an
    object whose changes field is an array in which every entry carries a
    string transaction_id, a string new_category and a numeric confidence,
    and whose new_subcategories field is an array (possibly empty); anything
    else rejects the whole batch response, never a partial changes list. -/
theorem C8_validateResponse (parsed : Json) :
    validateResponse parsed = true ↔
      (∃ fields, parsed = Json.obj fields)
      ∧ (∃ cs, getField parsed "changes" = some (Json.arr cs)
          ∧ (∃ subs, getField parsed "new_subcategories" = some (Json.arr subs))
          ∧ ∀ c ∈ cs,
              (∃ s, getField c "transaction_id" = some (Json.str s))
              ∧ (∃ s, getField c "new_category" = some (Json.str s))
              ∧ (∃ q, getField c "confidence" = some (Json.num q))) := by
  constructor
  · intro h
    unfold validateResponse at h
    split at h
    · next fields =>
      refine ⟨⟨fields, rfl⟩, ?_⟩
      split at h
      · next cs subs hc hs =>
        refine ⟨cs, hc, ⟨subs, hs⟩, ?_⟩
        intro c hcmem
        have hall := List.all_eq_true.mp h c hcmem
        rw [Bool.and_eq_true, Bool.and_eq_true] at hall
        obtain ⟨⟨h1, h2⟩, h3⟩ := hall
        exact ⟨(fieldIsString_iff c "transaction_id").mp h1,
          (fieldIsString_iff c "new_category").mp h2,
          (fieldIsNumber_iff c "confidence").mp h3⟩
      · exact absurd h (by simp)
    · exact absurd h (by simp)
  · rintro ⟨⟨fields, hp⟩, cs, hc, ⟨subs, hs⟩, hcs⟩
    subst hp
    unfold validateResponse
    rw [hc, hs]
    refine List.all_eq_true.mpr ?_
    intro c hcmem
    obtain ⟨h1, h2, h3⟩ := hcs c hcmem
    rw [Bool.and_eq_true, Bool.and_eq_true]
    exact ⟨⟨(fieldIsString_iff c "transaction_id").mpr h1,
      (fieldIsString_iff c "new_category").mpr h2⟩,
      (fieldIsNumber_iff c "confidence").mpr h3⟩

/-- Witness for C8 at a concrete accepted response and a concrete rejected
    one (an entry with a numeric transaction_id). -/
theorem C8_validateResponse_witness :
    validateResponse
        (Json.obj [("changes",
            Json.arr [Json.obj [("transaction_id", Json.str "e1"),
                                ("new_category", Json.str "Food"),
                                ("confidence", Json.num 0.9)]]),
          ("new_subcategories", Json.arr [])]) = true
  ∧ validateResponse
        (Json.obj [("changes",
            Json.arr [Json.obj [("transaction_id", Json.num 5),
                                ("new_category", Json.str "Food"),
                                ("confidence", Json.num 0.9)]]),
          ("new_subcategories", Json.arr [])]) = false := by
  constructor
  · exact (C8_validateResponse _).mpr
      ⟨⟨_, rfl⟩, _, rfl, ⟨[], rfl⟩, by
        intro c hc
        rw [List.mem_singleton.mp hc]
        exact ⟨⟨"e1", rfl⟩, ⟨"Food", rfl⟩, ⟨0.9, rfl⟩⟩⟩
  · rfl

/-- A batch response that passed validateResponse, in structured form: the
    validated fields of each change entry, plus the new_subcategories array
    (whose entries the validator leaves untyped). -/
structure ValidatedResponse where
  changes : List Change
  new_subcategories : List Json

/-- A progress event as reported to the onProgress callback. -/
structure Progress where
  current : Nat
  total : Nat
  retrying : Bool
deriving DecidableEq, Repr

/-- The statically configured fallback model per model family. -/
def MODEL_FALLBACK : String → Option String
  | "gemini-2.5-flash-lite" => some "gemini-2.5-flash"
  | "gemini-2.5-flash" => some "gemini-2.5-flash-lite"
  | _ => none

/-- The ways a run ends with a thrown error: the two precondition errors,
    and the rethrown primary error of a batch whose model has no configured
    fallback. -/
inductive RunError where
  | noApiKey : RunError
  | noExpenses : RunError
  | batchFailed (i : Nat) : RunError
deriving DecidableEq, Repr

/-- What a completed run resolves with. -/
structure RunResult where
  changes : List Change
  newSubcategories : List Json

/-- A run together with its observable behaviour: the network calls issued
    (batch index and model name, in order), the progress events emitted, and
    the result or thrown error. -/
structure RunOutcome where
  calls : List (Nat × String)
  progress : List Progress
  result : Except RunError RunResult

/-- The batch loop of runReclassification, embedded over a network oracle:
    net i m is the outcome of callGeminiBatch on batch i against model m
    (none embeds any thrown error: transport failure, timeout, non-success
    HTTP status, malformed JSON or failed validation). Per batch: report
    progress, attempt the primary model; on failure rethrow when the model
    has no configured fallback, otherwise report a retrying progress event
    and attempt the fallback once; when both fail, skip the batch and
    continue. Validated changes and new subcategories are aggregated across
    batches in order. -/
def runLoop (net : Nat → String → Option ValidatedResponse) (model : String)
    (total : Nat) :
    Nat → List (List Expense) →
      List (Nat × String) × List Progress × Except RunError (List Change × List Json)
  | _, [] => ([], [], Except.ok ([], []))
  | i, _batch :: rest =>
      let p1 : Progress := { current := i + 1, total := total, retrying := false }
      match net i model with
      | some v =>
          let next := runLoop net model total (i + 1) rest
          ((i, model) :: next.1,
            p1 :: next.2.1,
            next.2.2.map (fun acc => (v.changes ++ acc.1, v.new_subcategories ++ acc.2)))
      | none =>
          match MODEL_FALLBACK model with
          | none => ([(i, model)], [p1], Except.error (RunError.batchFailed i))
          | some fallbackModel =>
              let p2 : Progress := { current := i + 1, total := total, retrying := true }
              match net i fallbackModel with
              | some v =>
                  let next := runLoop net model total (i + 1) rest
                  ((i, model) :: (i, fallbackModel) :: next.1,
                    p1 :: p2 :: next.2.1,
                    next.2.2.map (fun acc =>
                      (v.changes ++ acc.1, v.new_subcategories ++ acc.2)))
              | none =>
                  let next := runLoop net model total (i + 1) rest
                  ((i, model) :: (i, fallbackModel) :: next.1,
                    p1 :: p2 :: next.2.1,
                    next.2.2)

/-- The final filter of the orchestrator: keep only changes whose confidence
    meets the threshold and whose new_category is in the fixed taxonomy (the
    Set lookup on an absent new_category finds nothing). -/
def finalFilter (allChanges : List Change) : List Change :=
  allChanges.filter (fun c =>
    decide (CONFIDENCE_THRESHOLD ≤ c.confidence)
    && (match c.new_category with
        | some s => CATEGORIES.contains s
        | none => false))

/-- runReclassification: reject an absent or empty credential, then an empty
    expense set, before any network call or progress event; otherwise batch
    the expenses, run the batch loop, and apply the final filter to the
    aggregated changes. -/
def runReclassification (net : Nat → String → Option ValidatedResponse)
    (apiKey : Option String) (expenses : List Expense) (model : String) :
    RunOutcome :=
  match apiKey with
  | none => { calls := [], progress := [], result := Except.error RunError.noApiKey }
  | some k =>
      if k = "" then
        { calls := [], progress := [], result := Except.error RunError.noApiKey }
      else if expenses.isEmpty then
        { calls := [], progress := [], result := Except.error RunError.noExpenses }
      else
        { calls := (runLoop net model (chunkByDays expenses BATCH_DAYS).length 0
            (chunkByDays expenses BATCH_DAYS)).1,
          progress := (runLoop net model (chunkByDays expenses BATCH_DAYS).length 0
            (chunkByDays expenses BATCH_DAYS)).2.1,
          result := ((runLoop net model (chunkByDays expenses BATCH_DAYS).length 0
            (chunkByDays expenses BATCH_DAYS)).2.2).map (fun acc =>
            { changes := finalFilter acc.1, newSubcategories := acc.2 }) }

/-- Mapping over a resolved Except applies the function. -/
theorem except_map_ok {α β ε : Type} (f : α → β) (a : α) :
    Except.map f (Except.ok a : Except ε α) = Except.ok (f a) := rfl

/-- Mapping over a thrown Except keeps the error. -/
theorem except_map_error {α β ε : Type} (f : α → β) (e : ε) :
    Except.map f (Except.error e : Except ε α) = Except.error e := rfl

/-- The batch loop either resolves, or throws the batch-failed error of some
    batch. -/
theorem runLoop_result_shape (net : Nat → String → Option ValidatedResponse)
    (model : String) (total : Nat) :
    ∀ (batches : List (List Expense)) (i : Nat),
      (∃ acc, (runLoop net model total i batches).2.2 = Except.ok acc)
      ∨ (∃ j, (runLoop net model total i batches).2.2
            = Except.error (RunError.batchFailed j))
  | [], _ => Or.inl ⟨([], []), rfl⟩
  | _b :: rest, i => by
      cases hnet : net i model with
      | some v =>
          rcases runLoop_result_shape net model total rest (i + 1) with ⟨acc, hacc⟩ | ⟨j, hj⟩
          · exact Or.inl ⟨(v.changes ++ acc.1, v.new_subcategories ++ acc.2),
              by simp only [runLoop, hnet, hacc, except_map_ok]⟩
          · exact Or.inr ⟨j,
              by simp only [runLoop, hnet, hj, except_map_error]⟩
      | none =>
          cases hfb : MODEL_FALLBACK model with
          | none =>
              exact Or.inr ⟨i, by simp only [runLoop, hnet, hfb]⟩
          | some fallbackModel =>
              cases hnet2 : net i fallbackModel with
              | some v =>
                  rcases runLoop_result_shape net model total rest (i + 1) with
                    ⟨acc, hacc⟩ | ⟨j, hj⟩
                  · exact Or.inl ⟨(v.changes ++ acc.1, v.new_subcategories ++ acc.2),
                      by simp only [runLoop, hnet, hfb, hnet2, hacc, except_map_ok]⟩
                  · exact Or.inr ⟨j,
                      by simp only [runLoop, hnet, hfb, hnet2, hj, except_map_error]⟩
              | none =>
                  rcases runLoop_result_shape net model total rest (i + 1) with
                    ⟨acc, hacc⟩ | ⟨j, hj⟩
                  · exact Or.inl ⟨acc,
                      by simp only [runLoop, hnet, hfb, hnet2, hacc]⟩
                  · exact Or.inr ⟨j,
                      by simp only [runLoop, hnet, hfb, hnet2, hj]⟩

/-- C7: an absent or empty credential fails the run immediately with the
    missing-key error, and a present credential with an empty expense set
    fails immediately with the empty-scope error, in both cases with no
    network call and no progress event; when both preconditions hold,
    neither of those two errors is ever the outcome of the run. -/
theorem C7_preconditions (net : Nat → String → Option ValidatedResponse)
    (apiKey : Option String) (expenses : List Expense) (model : String) :
    ((apiKey = none ∨ apiKey = some "") →
        runReclassification net apiKey expenses model
          = { calls := [], progress := [],
              result := Except.error RunError.noApiKey })
  ∧ ((∃ k, apiKey = some k ∧ k ≠ "") → expenses = [] →
        runReclassification net apiKey expenses model
          = { calls := [], progress := [],
              result := Except.error RunError.noExpenses })
  ∧ ((∃ k, apiKey = some k ∧ k ≠ "") → expenses ≠ [] →
        (runReclassification net apiKey expenses model).result
            ≠ Except.error RunError.noApiKey
        ∧ (runReclassification net apiKey expenses model).result
            ≠ Except.error RunError.noExpenses) := by
  refine ⟨?_, ?_, ?_⟩
  · rintro (hk | hk) <;> rw [hk, runReclassification]
    rw [if_pos rfl]
  · rintro ⟨k, hk, hke⟩ hemp
    rw [hk, runReclassification, if_neg hke, if_pos (List.isEmpty_iff.mpr hemp)]
  · rintro ⟨k, hk, hke⟩ hne
    rw [hk, runReclassification, if_neg hke,
      if_neg (fun h => hne (List.isEmpty_iff.mp h))]
    rcases runLoop_result_shape net model (chunkByDays expenses BATCH_DAYS).length
        (chunkByDays expenses BATCH_DAYS) 0 with ⟨acc, hacc⟩ | ⟨j, hj⟩
    · constructor <;> · simp only [hacc, except_map_ok]; intro hcontra; exact Except.noConfusion hcontra
    · constructor <;> · simp only [hj, except_map_error]; intro hcontra; simp at hcontra

/-- Witness for C7: the run rejects an empty in-scope set with the dedicated
    error before any call or progress event, for a concrete oracle. -/
theorem C7_preconditions_witness :
    runReclassification (fun _ _ => none) (some "key") [] "gemini-2.5-flash"
      = { calls := [], progress := [],
          result := Except.error RunError.noExpenses } :=
  (C7_preconditions (fun _ _ => none) (some "key") [] "gemini-2.5-flash").2.1
    ⟨"key", rfl, by decide⟩ rfl

/-- A concrete validated proposal with confidence 0.5. -/
def conf05 : Change :=
  { transaction_id := "e1", new_category := some "Food", new_subcategory := none,
    new_description := none, confidence := mkRat 1 2, normalized_merchant := none }

/-- A concrete validated proposal with confidence 0.75. -/
def conf075 : Change :=
  { transaction_id := "e1", new_category := some "Food", new_subcategory := none,
    new_description := none, confidence := mkRat 3 4, normalized_merchant := none }

/-- A concrete validated proposal with confidence 0.9. -/
def conf09 : Change :=
  { transaction_id := "e1", new_category := some "Transport", new_subcategory := none,
    new_description := none, confidence := mkRat 9 10, normalized_merchant := none }

/-- A concrete proposal naming a category outside the taxonomy, with full
    confidence. -/
def bogusProposal : Change :=
  { transaction_id := "e1", new_category := some "Bogus", new_subcategory := none,
    new_description := none, confidence := 1, normalized_merchant := none }

/-- A concrete validated batch response carrying the four proposals above. -/
def vRespGate : ValidatedResponse :=
  { changes := [conf05, conf075, conf09, bogusProposal], new_subcategories := [] }

/-- An oracle that answers every batch call with vRespGate. -/
def netGate : Nat → String → Option ValidatedResponse :=
  fun _ _ => some vRespGate

/-- C3: a change survives the final filter of runReclassification exactly
    when it is among the aggregated validated proposals, its confidence is at
    least the 0.75 threshold and its new_category belongs to the fixed
    taxonomy; among confidences 0.5, 0.75 and 0.9 exactly the last two
    survive, a Bogus-category proposal is dropped even at confidence 1.0,
    and a concrete single-batch run returns exactly the surviving two. -/
theorem C3_confidence_category_gate :
    (∀ (l : List Change) (c : Change),
        c ∈ finalFilter l ↔
          c ∈ l ∧ CONFIDENCE_THRESHOLD ≤ c.confidence
            ∧ ∃ s, c.new_category = some s ∧ s ∈ CATEGORIES)
  ∧ (finalFilter [conf05, conf075, conf09] = [conf075, conf09])
  ∧ (finalFilter [bogusProposal] = [])
  ∧ ((runReclassification netGate (some "key") [sampleExpense1]
        "gemini-2.5-flash").result
      = Except.ok { changes := [conf075, conf09], newSubcategories := [] }) := by
  refine ⟨?_, by decide, by decide, rfl⟩
  intro l c
  rw [finalFilter, List.mem_filter]
  constructor
  · rintro ⟨hm, hb⟩
    rw [Bool.and_eq_true] at hb
    obtain ⟨h1, h2⟩ := hb
    refine ⟨hm, of_decide_eq_true h1, ?_⟩
    cases hcat : c.new_category with
    | none => rw [hcat] at h2; exact absurd h2 (by simp)
    | some s =>
        rw [hcat] at h2
        exact ⟨s, rfl, List.elem_iff.mp h2⟩
  · rintro ⟨hm, hconf, s, hcat, hs⟩
    refine ⟨hm, ?_⟩
    rw [Bool.and_eq_true]
    refine ⟨decide_eq_true hconf, ?_⟩
    rw [hcat]
    exact List.elem_iff.mpr hs

/-- Witness for C3: the surviving proposal of confidence 0.9 passes the
    characterization at a concrete list. -/
theorem C3_confidence_category_gate_witness :
    conf09 ∈ finalFilter [conf05, conf075, conf09] :=
  (C3_confidence_category_gate.1 [conf05, conf075, conf09] conf09).mpr
    ⟨by decide, by decide, "Transport", rfl, by decide⟩

/-- The network calls a single batch gives rise to when the model has the
    given fallback: the primary call, then the fallback call when the
    primary fails. -/
def batchCalls (net : Nat → String → Option ValidatedResponse)
    (model fallbackModel : String) (i : Nat) : List (Nat × String) :=
  match net i model with
  | some _ => [(i, model)]
  | none => [(i, model), (i, fallbackModel)]

/-- The validated changes a single batch contributes: those of the primary
    response, else those of the fallback response, else none (batch
    skipped). -/
def batchChanges (net : Nat → String → Option ValidatedResponse)
    (model fallbackModel : String) (i : Nat) : List Change :=
  match net i model with
  | some v => v.changes
  | none =>
      match net i fallbackModel with
      | some v => v.changes
      | none => []

/-- The proposed new subcategories a single batch contributes, analogous to
    batchChanges. -/
def batchSubs (net : Nat → String → Option ValidatedResponse)
    (model fallbackModel : String) (i : Nat) : List Json :=
  match net i model with
  | some v => v.new_subcategories
  | none =>
      match net i fallbackModel with
      | some v => v.new_subcategories
      | none => []

/-- When the model has a configured fallback, the batch loop never throws:
    it issues per batch the primary call and, exactly when the primary
    fails, one fallback call, and it resolves with the concatenation of the
    per-batch contributions (a doubly-failing batch contributing nothing). -/
theorem runLoop_fallback (net : Nat → String → Option ValidatedResponse)
    (model fb : String) (hfb : MODEL_FALLBACK model = some fb) (total : Nat) :
    ∀ (batches : List (List Expense)) (i : Nat),
      (runLoop net model total i batches).1
        = ((List.range batches.length).map
            (fun k => batchCalls net model fb (i + k))).flatten
      ∧ (runLoop net model total i batches).2.2
        = Except.ok
            (((List.range batches.length).map
                (fun k => batchChanges net model fb (i + k))).flatten,
              ((List.range batches.length).map
                (fun k => batchSubs net model fb (i + k))).flatten)
  | [], i => by simp [runLoop]
  | _b :: rest, i => by
      obtain ⟨ih1, ih2⟩ := runLoop_fallback net model fb hfb total rest (i + 1)
      have hrange : ∀ {α : Type} (f : Nat → List α),
          ((List.range (rest.length + 1)).map (fun k => f (i + k))).flatten
            = f i ++ ((List.range rest.length).map (fun k => f ((i + 1) + k))).flatten := by
        intro α f
        rw [List.range_succ_eq_map]
        simp only [List.map_cons, List.map_map, List.flatten_cons, Nat.add_zero]
        congr 1
        apply congrArg
        apply List.map_congr_left
        intro a _
        simp only [Function.comp_apply]
        congr 1
        omega
      rw [List.length_cons]
      constructor
      · rw [hrange]
        cases hnet : net i model with
        | some v =>
            simp only [runLoop, hnet, ih1, batchCalls]
            rfl
        | none =>
            cases hnet2 : net i fb with
            | some v =>
                simp only [runLoop, hnet, hfb, hnet2, ih1, batchCalls]
                rfl
            | none =>
                simp only [runLoop, hnet, hfb, hnet2, ih1, batchCalls]
                rfl
      · rw [hrange, hrange]
        cases hnet : net i model with
        | some v =>
            simp only [runLoop, hnet, ih2, except_map_ok, batchChanges, batchSubs]
        | none =>
            cases hnet2 : net i fb with
            | some v =>
                simp only [runLoop, hnet, hfb, hnet2, ih2, except_map_ok,
                  batchChanges, batchSubs]
            | none =>
                simp only [runLoop, hnet, hfb, hnet2, ih2, batchChanges, batchSubs,
                  List.nil_append]

/-- C4 amended: for a model with a configured fallback, a batch whose
    primary attempt fails gets exactly one fallback attempt, a batch failing
    on both models is skipped while the run continues, and the run resolves
    with the filtered validated changes aggregated from every non-skipped
    batch. (The original claim is refuted by C4_counterexample: for a model
    name outside the fallback table, a single failing batch rethrows and
    aborts the whole run.) -/
theorem C4_fallback_isolation (net : Nat → String → Option ValidatedResponse)
    (k model fb : String) (expenses : List Expense)
    (hk : k ≠ "") (hfb : MODEL_FALLBACK model = some fb) (hne : expenses ≠ []) :
    (runReclassification net (some k) expenses model).calls
      = ((List.range (chunkByDays expenses BATCH_DAYS).length).map
          (fun i => batchCalls net model fb i)).flatten
  ∧ (runReclassification net (some k) expenses model).result
      = Except.ok
          { changes := finalFilter
              (((List.range (chunkByDays expenses BATCH_DAYS).length).map
                  (fun i => batchChanges net model fb i)).flatten),
            newSubcategories :=
              ((List.range (chunkByDays expenses BATCH_DAYS).length).map
                  (fun i => batchSubs net model fb i)).flatten } := by
  obtain ⟨h1, h2⟩ := runLoop_fallback net model fb hfb
    (chunkByDays expenses BATCH_DAYS).length (chunkByDays expenses BATCH_DAYS) 0
  have hzero : ∀ {α : Type} (f : Nat → List α),
      ((List.range (chunkByDays expenses BATCH_DAYS).length).map
          (fun k => f (0 + k))).flatten
        = ((List.range (chunkByDays expenses BATCH_DAYS).length).map
            (fun i => f i)).flatten := by
    intro α f
    apply congrArg
    apply List.map_congr_left
    intro a _
    rw [Nat.zero_add]
  rw [hzero] at h1
  rw [hzero, hzero] at h2
  rw [runReclassification, if_neg hk,
    if_neg (fun h => hne (List.isEmpty_iff.mp h))]
  exact ⟨h1, by rw [h2, except_map_ok]⟩

/-- A concrete validated response carrying one surviving proposal. -/
def vRespSingle : ValidatedResponse :=
  { changes := [conf09], new_subcategories := [] }

/-- An oracle on which every attempt for batch 0 fails and every attempt for
    any later batch succeeds. -/
def netFailFirst : Nat → String → Option ValidatedResponse
  | 0, _ => none
  | _, _ => some vRespSingle

/-- C4 fails as stated: for a model name outside the fallback table, the
    failure of a single batch rethrows the primary error and aborts the
    whole run, so nothing of the second (succeeding) batch is returned and
    no further call is issued. -/
theorem C4_counterexample :
    (runReclassification netFailFirst (some "key") [sampleExpense1, sampleExpense2]
        "custom-model").result = Except.error (RunError.batchFailed 0)
  ∧ (runReclassification netFailFirst (some "key") [sampleExpense1, sampleExpense2]
        "custom-model").calls = [(0, "custom-model")] :=
  ⟨rfl, rfl⟩

/-- Witness for C4 amended: with the primary model of the fallback table,
    batch 0 fails on both models and is skipped, and the run still resolves
    with the validated changes of batch 1. -/
theorem C4_fallback_isolation_witness :
    (runReclassification netFailFirst (some "key") [sampleExpense1, sampleExpense2]
        "gemini-2.5-flash-lite").result
      = Except.ok { changes := [conf09], newSubcategories := [] } := by
  have h := (C4_fallback_isolation netFailFirst "key" "gemini-2.5-flash-lite"
    "gemini-2.5-flash" [sampleExpense1, sampleExpense2] (by decide) rfl (by decide)).2
  rw [h]
  rfl

/-- The decimal-digit prefix of a character list and the remainder. -/
def takeDigits : List Char → List Char × List Char
  | [] => ([], [])
  | c :: rest =>
      if c.isDigit then
        let p := takeDigits rest
        (c :: p.1, p.2)
      else ([], c :: rest)

/-- The numeric value of a list of decimal digits. -/
def digitsVal (ds : List Char) : Nat :=
  ds.foldl (fun a c => 10 * a + (c.toNat - 48)) 0

/-- The unsigned decimal mantissa prefix read by parseFloat: digits,
    optionally a dot and further digits, with at least one digit overall;
    none when no digit leads (NaN). -/
def parseMantissa (cs : List Char) : Option (ℚ × List Char) :=
  let ip := takeDigits cs
  match ip.2 with
  | '.' :: r2 =>
      let fp := takeDigits r2
      if ip.1.isEmpty && fp.1.isEmpty then none
      else some ((digitsVal ip.1 : ℚ) + mkRat (digitsVal fp.1) (10 ^ fp.1.length), fp.2)
  | _ => if ip.1.isEmpty then none else some ((digitsVal ip.1 : ℚ), ip.2)

/-- The exponent digits after the sign: an exponent with no digit is
    ignored, as parseFloat stops reading there. -/
def applyExpDigits (q : ℚ) (neg : Bool) (cs : List Char) : ℚ :=
  let ds := (takeDigits cs).1
  if ds.isEmpty then q
  else if neg then q * mkRat 1 (10 ^ digitsVal ds)
  else q * ((10 : ℚ) ^ digitsVal ds)

/-- The optional exponent suffix read by parseFloat. -/
def applyExponent (q : ℚ) (cs : List Char) : ℚ :=
  match cs with
  | 'e' :: rest => (match rest with
      | '+' :: r2 => applyExpDigits q false r2
      | '-' :: r2 => applyExpDigits q true r2
      | r2 => applyExpDigits q false r2)
  | 'E' :: rest => (match rest with
      | '+' :: r2 => applyExpDigits q false r2
      | '-' :: r2 => applyExpDigits q true r2
      | r2 => applyExpDigits q false r2)
  | _ => q

/-- JavaScript parseFloat on a string: skip leading whitespace, read an
    optional sign, a decimal mantissa and an optional exponent; none stands
    for NaN. (The rarely produced Infinity literal is not modelled.) -/
def jsParseFloat (s : String) : Option ℚ :=
  match s.data.dropWhile (fun c => c.isWhitespace) with
  | '+' :: rest => (parseMantissa rest).map (fun p => applyExponent p.1 p.2)
  | '-' :: rest => (parseMantissa rest).map (fun p => -(applyExponent p.1 p.2))
  | rest => (parseMantissa rest).map (fun p => applyExponent p.1 p.2)

/-- parseFloat applied to a parsed JSON value, as the extract endpoint does:
    a number stays itself, a string is parsed, an array is coerced to the
    comma-joined string of its elements so its leading element decides the
    parse, and null, booleans and objects coerce to strings that parse to
    NaN. -/
def jsParseFloatJson : Json → Option ℚ
  | Json.num q => some q
  | Json.str s => jsParseFloat s
  | Json.arr [] => none
  | Json.arr (x :: _) => jsParseFloatJson x
  | _ => none

/-- The category allow-list of the extract endpoint (its own literal copy of
    the taxonomy). -/
def VALID_CATEGORIES : List String :=
  ["Food", "Transport", "Utilities", "Entertainment", "Shopping", "Health", "Other"]

/-- Property assignment on the field list of a parsed JSON object: replace
    the value in place when the key exists (parsed objects hold each key
    once), append the key otherwise. -/
def setAssoc : List (String × Json) → String → Json → List (String × Json)
  | [], key, v => [(key, v)]
  | kv :: rest, key, v =>
      if kv.1 == key then (key, v) :: rest
      else kv :: setAssoc rest key v

/-- The sanitized category of the extract endpoint: the extracted category
    when it is a string of the allow-list, Other otherwise (also when the
    field is absent or not a string). -/
def sanitizeCategory (extracted : Json) : String :=
  match getField extracted "category" with
  | some (Json.str s) => if VALID_CATEGORIES.contains s then s else "Other"
  | _ => "Other"

/-- The amount of the extract endpoint: parseFloat of the extracted amount
    field, with NaN (including an absent field) collapsed to 0 by the
    or-zero guard. -/
def extractAmount (extracted : Json) : ℚ :=
  match getField extracted "amount" with
  | some j => (jsParseFloatJson j).getD 0
  | none => 0

/-- The outcome of the model call of the extract endpoint, at the JSON.parse
    boundary: the SDK call threw, the returned text failed to parse as JSON,
    or it parsed to a value. -/
inductive ModelOutcome where
  | threw : ModelOutcome
  | unparseable : ModelOutcome
  | parsed (j : Json) : ModelOutcome

/-- The error classes of the extract endpoint, each standing for the literal
    message string of the source response. -/
inductive ExtractError where
  | textRequired : ExtractError
  | missingKey : ExtractError
  | unreadableResponse : ExtractError
  | invalidAmount : ExtractError
  | thrown : ExtractError
deriving DecidableEq, Repr

/-- A response of the extract endpoint: an error status with its error
    class, or the 200 response with its JSON body. -/
inductive ExtractResponse where
  | err (status : Nat) (e : ExtractError) : ExtractResponse
  | ok (body : Json) : ExtractResponse

/-- The HTTP status of a response (res.json without res.status is 200). -/
def ExtractResponse.status : ExtractResponse → Nat
  | .err s _ => s
  | .ok _ => 200

/-- JavaScript String.prototype.trim, over the character list of the string
    (the core whitespace characters; the exotic extras of the JavaScript
    class do not occur here). -/
def jsTrim (s : String) : String :=
  String.mk (((s.data.dropWhile (fun c => c.isWhitespace)).reverse.dropWhile
    (fun c => c.isWhitespace)).reverse)

/-- The extract endpoint: 400 for missing or blank text, 400 for a missing
    credential, 500 when the model call throws or its output fails to parse
    as JSON; a parsed object gets its category sanitized and its amount
    parsed in place, then a non-positive amount gives 400 and otherwise the
    mutated object is returned. A parsed array reaches the amount check with
    an absent amount field and gives 400; a parsed null, number, string or
    boolean throws on the first property access or strict-mode property
    write and is caught as 500. The text field is modelled as absent or a
    string, the only shapes the UI sends. -/
def extractHandler (text : Option String) (apiKey : Option String)
    (modelOutcome : ModelOutcome) : ExtractResponse :=
  match text with
  | none => ExtractResponse.err 400 ExtractError.textRequired
  | some t =>
      if jsTrim t = "" then ExtractResponse.err 400 ExtractError.textRequired
      else
        match apiKey with
        | none => ExtractResponse.err 400 ExtractError.missingKey
        | some _ =>
            match modelOutcome with
            | ModelOutcome.threw => ExtractResponse.err 500 ExtractError.thrown
            | ModelOutcome.unparseable =>
                ExtractResponse.err 500 ExtractError.unreadableResponse
            | ModelOutcome.parsed extracted =>
                match extracted with
                | Json.obj fields =>
                    if extractAmount extracted ≤ 0 then
                      ExtractResponse.err 400 ExtractError.invalidAmount
                    else
                      ExtractResponse.ok (Json.obj
                        (setAssoc
                          (setAssoc fields "category"
                            (Json.str (sanitizeCategory extracted)))
                          "amount" (Json.num (extractAmount extracted))))
                | Json.arr _ => ExtractResponse.err 400 ExtractError.invalidAmount
                | _ => ExtractResponse.err 500 ExtractError.thrown

/-- Looking up the assigned key finds the assigned value. -/
theorem getField_setAssoc_same (fields : List (String × Json)) (key : String)
    (v : Json) :
    getField (Json.obj (setAssoc fields key v)) key = some v := by
  induction fields with
  | nil => simp [setAssoc, getField, List.find?]
  | cons kv rest ih =>
      rw [setAssoc]
      by_cases h : kv.1 == key
      · rw [if_pos h]
        simp [getField, List.find?]
      · rw [if_neg h]
        simpa [getField, List.find?, h] using ih

/-- Looking up any other key is unaffected by the assignment. -/
theorem getField_setAssoc_other (fields : List (String × Json))
    (key key2 : String) (v : Json) (h : key2 ≠ key) :
    getField (Json.obj (setAssoc fields key v)) key2
      = getField (Json.obj fields) key2 := by
  have hbeq : (key == key2) = false := by
    simp only [beq_eq_false_iff_ne, ne_eq]
    exact fun hk => h hk.symm
  induction fields with
  | nil => simp [setAssoc, getField, List.find?, hbeq]
  | cons kv rest ih =>
      rw [setAssoc]
      by_cases hk : kv.1 == key
      · rw [if_pos hk]
        have hkv : (kv.1 == key2) = false := by
          rw [beq_iff_eq] at hk
          rw [hk]
          exact hbeq
        simp [getField, List.find?, hbeq, hkv]
      · rw [if_neg hk]
        by_cases hk2 : kv.1 == key2
        · simp [getField, List.find?, hk2]
        · simpa [getField, List.find?, hk2] using ih

/-- C9 fails as stated: with a missing credential the extract endpoint
    responds 400, not 500 (the status the claim assigns to missing
    credentials). -/
theorem C9_counterexample :
    (extractHandler (some "spent 25 on lunch") none ModelOutcome.threw).status = 400
  ∧ (extractHandler (some "spent 25 on lunch") none ModelOutcome.threw).status ≠ 500 :=
  ⟨rfl, by decide⟩

/-- C9 amended: the extract endpoint responds 400 when the amount is missing
    or unparseable (non-positive after parsing) and also when the
    credentials are missing; it responds 500 when the model output cannot be
    parsed; and on success it returns the parsed object with the category
    sanitized and the amount replaced by its parsed positive value, so the
    response carries date, details and paidBy exactly when the model output
    does (category and amount are always present). -/
theorem C9_extract_statuses (text apiKey : Option String) (mo : ModelOutcome) :
    (∀ t, text = some t → jsTrim t ≠ "" → apiKey = none →
        extractHandler text apiKey mo
          = ExtractResponse.err 400 ExtractError.missingKey)
  ∧ (∀ t k, text = some t → jsTrim t ≠ "" → apiKey = some k →
        mo = ModelOutcome.unparseable →
        extractHandler text apiKey mo
          = ExtractResponse.err 500 ExtractError.unreadableResponse)
  ∧ (∀ t k fields, text = some t → jsTrim t ≠ "" → apiKey = some k →
        mo = ModelOutcome.parsed (Json.obj fields) →
        extractAmount (Json.obj fields) ≤ 0 →
        extractHandler text apiKey mo
          = ExtractResponse.err 400 ExtractError.invalidAmount)
  ∧ (∀ t k fields, text = some t → jsTrim t ≠ "" → apiKey = some k →
        mo = ModelOutcome.parsed (Json.obj fields) →
        0 < extractAmount (Json.obj fields) →
        ∃ out, extractHandler text apiKey mo = ExtractResponse.ok out
          ∧ (ExtractResponse.ok out).status = 200
          ∧ getField out "category"
              = some (Json.str (sanitizeCategory (Json.obj fields)))
          ∧ getField out "amount"
              = some (Json.num (extractAmount (Json.obj fields)))
          ∧ ∀ key2, key2 ≠ "category" → key2 ≠ "amount" →
              getField out key2 = getField (Json.obj fields) key2) := by
  refine ⟨?_, ?_, ?_, ?_⟩
  · rintro t rfl htrim rfl
    simp only [extractHandler, if_neg htrim]
  · rintro t k rfl htrim rfl rfl
    simp only [extractHandler, if_neg htrim]
  · rintro t k fields rfl htrim rfl rfl hamt
    simp only [extractHandler, if_neg htrim, if_pos hamt]
  · rintro t k fields rfl htrim rfl rfl hamt
    have hne : ¬ extractAmount (Json.obj fields) ≤ 0 := not_le.mpr hamt
    refine ⟨Json.obj (setAssoc
        (setAssoc fields "category" (Json.str (sanitizeCategory (Json.obj fields))))
        "amount" (Json.num (extractAmount (Json.obj fields)))),
      ?_, rfl, ?_, ?_, ?_⟩
    · simp only [extractHandler, if_neg htrim, if_neg hne]
    · rw [getField_setAssoc_other _ _ _ _ (by decide), getField_setAssoc_same]
    · rw [getField_setAssoc_same]
    · intro key2 h1 h2
      rw [getField_setAssoc_other _ _ _ _ h2, getField_setAssoc_other _ _ _ _ h1]

/-- Witness for C9 amended at concrete inputs: an unreadable model response
    gives 500, a missing amount gives 400, and a successful extraction
    passes its fields through. -/
theorem C9_extract_statuses_witness :
    (extractHandler (some "coffee 25") (some "key") ModelOutcome.unparseable
      = ExtractResponse.err 500 ExtractError.unreadableResponse)
  ∧ (extractHandler (some "coffee 25") (some "key")
        (ModelOutcome.parsed (Json.obj [("details", Json.str "coffee")]))
      = ExtractResponse.err 400 ExtractError.invalidAmount) := by
  constructor
  · exact (C9_extract_statuses (some "coffee 25") (some "key")
      ModelOutcome.unparseable).2.1 "coffee 25" "key" rfl (by decide) rfl rfl
  · exact (C9_extract_statuses (some "coffee 25") (some "key")
      (ModelOutcome.parsed (Json.obj [("details", Json.str "coffee")]))).2.2.1
      "coffee 25" "key" [("details", Json.str "coffee")] rfl (by decide) rfl rfl
      (by decide)
